import Mathlib

/-!
Verification of the LabView RSRC connector-catalog reader/writer
(`LVconnector.py`). Bytes are modelled as `Nat` values (< 256 on real
inputs); byte strings as `List Nat`, big-endian throughout, as in the
source. Reads past the end of a buffer yield the empty string, and
`int.from_bytes` of an empty string is `0`, matching Python's `BytesIO`.
Fallible code paths (Python exceptions) are modelled with `Option`.
-/

namespace PyLabView

/-- Bytes taken from `data` starting at `pos`, at most `n` of them:
`BytesIO.read(n)` positioned at `pos`. -/
def readBytes (data : List Nat) (pos n : Nat) : List Nat :=
  (data.drop pos).take n

/-- Big-endian `int.from_bytes`; the empty string yields 0. -/
def bytesToNat (bs : List Nat) : Nat :=
  bs.foldl (fun a b => a * 256 + b) 0

/-- Read an unsigned big-endian integer of `n` bytes at `pos`. -/
def readUInt (data : List Nat) (pos n : Nat) : Nat :=
  bytesToNat (readBytes data pos n)

/-- Big-endian `int.to_bytes(w, byteorder='big')`. Faithful for
`n < 256 ^ w`; Python raises `OverflowError` beyond that, so theorems
using this stay inside that range. -/
def toBytesBE (w n : Nat) : List Nat :=
  (List.range w).map (fun i => n / 256 ^ (w - 1 - i) % 256)

/-- Modelled from the spec: `readVariableSizeFieldU2p2` lives in the
missing `LVmisc` module. Spec section 4.1: read a 16-bit value `v`; if
`v` is not `0xFFFF` the integer is `v`; otherwise a subsequent 32-bit
value is the integer. Returns the value and the count of bytes consumed. -/
def readU2p2 (data : List Nat) (pos : Nat) : Nat × Nat :=
  let v := readUInt data pos 2
  if v = 0xFFFF then (readUInt data (pos + 2) 4, 6) else (v, 2)

/-- Modelled from the spec: `prepareVariableSizeFieldU2p2` lives in the
missing `LVmisc` module. Spec section 4.1: values at most `0x7FFF` emit
two bytes; larger values emit the `0xFFFF` sentinel and a 32-bit value. -/
def prepareU2p2 (n : Nat) : List Nat :=
  if n ≤ 0x7FFF then toBytesBE 2 n else 0xFF :: 0xFF :: toBytesBE 4 n

/-- Common record preamble, `ConnectorObject.parseRSRCDataHeader`:
variable-size length, one flags byte, one type byte. Returns
`(obj_type, obj_flags, obj_len, position after the header)`. -/
def parseRSRCDataHeader (data : List Nat) : Nat × Nat × Nat × Nat :=
  let r := readU2p2 data 0
  let oflags := readUInt data r.2 1
  let otype := readUInt data (r.2 + 1) 1
  (otype, oflags, r.1, r.2 + 2)

/-- A byte acceptable inside a label: carriage return, line feed, tab,
or printable (at least 32). -/
def labelByteOk (bt : Nat) : Bool :=
  bt = 13 || bt = 10 || bt = 9 || bt ≥ 32

/-- The tail-strip step of `validLabelLength`: remove a single trailing
zero byte when the final byte is zero. -/
def stripOneZero (l : List Nat) : List Nat :=
  if l.getLast? = some 0 then l.dropLast else l

/-- `ConnectorObject.validLabelLength`: the length claimed at position
`i` when `whole_data`, after stripping one trailing zero, ends exactly
`claimed + 1` bytes after `i` with every byte past `i` label-acceptable;
otherwise 0. -/
def validLabelLength (wholeData : List Nat) (i : Nat) : Nat :=
  let wd := stripOneZero wholeData
  let labelLen := (wd.drop i).headD 0
  if wd.length - i = labelLen + 1 && (wd.drop (i + 1)).all labelByteOk then
    labelLen
  else 0

/-- The scan loop shared by `parseRSRCDataFinish` and `prepareRSRCData`:
try the candidate positions in order, stopping at the first one
`validLabelLength` accepts. Returns the position and the label bytes
(taken from the unstripped buffer). -/
def findLabelScan (wholeData : List Nat) : List Nat → Option (Nat × List Nat)
  | [] => none
  | i :: rest =>
      let ll := validLabelLength wholeData i
      if ll > 0 then some (i, (wholeData.drop (i + 1)).take ll)
      else findLabelScan wholeData rest

/-- Label discovery over the bytes remaining after the variant payload:
scan positions in `[max(len - 256, 0), len)`, in Python
`range(max(len(whole_data)-256,0), len(whole_data))`. -/
def findLabel (wholeData : List Nat) : Option (Nat × List Nat) :=
  findLabelScan wholeData
    ((List.range wholeData.length).drop (wholeData.length - 256))

/-- Whether the `HasLabel` flag (bit 6 of the record flags) is set. -/
def hasLabelFlag (oflags : Nat) : Bool :=
  oflags &&& 64 ≠ 0

/-- Python `oflags & ~HasLabel`: clear bit 6, preserving all other bits. -/
def clearHasLabel (f : Nat) : Nat :=
  if f.testBit 6 then f - 64 else f

/-- The label part of `ConnectorObject.parseRSRCDataFinish`: with the
`HasLabel` flag set, the discovered label, or the empty byte string when
the scan finds none (a warning is recorded); without the flag the label
stays unset. -/
def parseRSRCDataFinishLabel (oflags : Nat) (wholeData : List Nat) :
    Option (List Nat) :=
  if hasLabelFlag oflags then
    match findLabel wholeData with
    | some r => some r.2
    | none => some []
  else none

/-- In-memory connector state shared by every variant: flags, type tag,
optional label, and the raw on-disk bytes. -/
structure ConnState where
  oflags : Nat
  otype : Nat
  label : Option (List Nat)
  rawData : List Nat
deriving DecidableEq, Repr

/-- Generic `ConnectorObject.parseRSRCData`: read the header, keep the
raw bytes, and recover the label from the remainder. -/
def genericParseRSRCData (b : List Nat) : ConnState :=
  let h := parseRSRCDataHeader b
  { oflags := h.2.1, otype := h.1
    label := parseRSRCDataFinishLabel h.2.1 (b.drop h.2.2.2)
    rawData := b }

/-- Generic `ConnectorObject.prepareRSRCData`: the raw bytes past the
4-byte header, with the label removed at the first scan position when
the `HasLabel` flag is set. -/
def genericPrepareRSRCData (oflags : Nat) (rawData : List Nat) : List Nat :=
  let dataBuf := rawData.drop 4
  if hasLabelFlag oflags then
    match findLabel dataBuf with
    | some r => dataBuf.take r.1
    | none => dataBuf
  else dataBuf

/-- `ConnectorObject.prepareRSRCDataFinish`: with a label present, force
the `HasLabel` bit, truncate the label to 255 bytes, and emit the length
byte plus label, zero-padded to even length; with no label, clear the
bit and emit nothing. Returns the updated flags, the updated label, and
the emitted bytes. -/
def prepareRSRCDataFinish (oflags : Nat) (label : Option (List Nat)) :
    Nat × Option (List Nat) × List Nat :=
  match label with
  | some l =>
      let l2 := if l.length > 255 then l.take 255 else l
      let buf := l2.length :: l2
      let buf2 := if buf.length % 2 > 0 then buf ++ [0] else buf
      (oflags ||| 64, some l2, buf2)
  | none => (clearHasLabel oflags, none, [])

/-- `ConnectorObject.updateData`: rebuild the raw bytes from the variant
payload, the label tail, and a fresh 4-byte header carrying the total
length. -/
def genericUpdateData (c : ConnState) : ConnState :=
  let dataBuf := genericPrepareRSRCData c.oflags c.rawData
  let fin := prepareRSRCDataFinish c.oflags c.label
  let dataBuf2 := dataBuf ++ fin.2.2
  let head := toBytesBE 2 (dataBuf2.length + 4) ++ toBytesBE 1 fin.1 ++ toBytesBE 1 c.otype
  { oflags := fin.1, otype := c.otype, label := fin.2.1
    rawData := head ++ dataBuf2 }

/-- Parse a record's bytes and re-serialize them, the composition of
claim C1. -/
def genericSerializeParse (b : List Nat) : List Nat :=
  (genericUpdateData (genericParseRSRCData b)).rawData

/-- Base `ConnectorObject.checkSanity`: unconditionally true. -/
def genericCheckSanity (_c : ConnState) : Bool :=
  true

/-- The handler class a record is dispatched to. -/
inductive ConnKind where
  | generic
  | void
  | number
  | boolean
  | blob
  | cstring
  | pasString
  | tag
  | array
  | cluster
  | measureData
  | fixedPoint
  | singleContainer
  | repeatedBlock
  | numberPtr
  | ref
  | function
  | typeDef
deriving DecidableEq, Repr

/-- `newConnectorObject`: the full-type constructor table, falling back
to the main-type (high nibble) table, falling back to the generic
`ConnectorObject`. `LVVariant` (0x53), `CString` (0x34) and `PasString`
(0x35) reuse the Void handler and `Ptr` (0x80) the NumberPtr handler,
all of which store no extra payload; they are kept apart here to mirror
the class names. -/
def newConnectorObjectKind (objType : Nat) : ConnKind :=
  if objType = 0x00 then .void
  else if objType = 0x30 ∨ objType = 0x32 ∨ objType = 0x33 then .blob
  else if objType = 0x34 then .cstring
  else if objType = 0x35 then .pasString
  else if objType = 0x37 then .tag
  else if objType = 0x3F then .blob
  else if objType = 0x50 then .cluster
  else if objType = 0x53 then .void
  else if objType = 0x54 then .measureData
  else if objType = 0x5E ∨ objType = 0x5F then .fixedPoint
  else if objType = 0x60 then .blob
  else if objType = 0x61 ∨ objType = 0x62 then .singleContainer
  else if objType = 0x63 ∨ objType = 0x64 then .repeatedBlock
  else if objType = 0x65 then .singleContainer
  else if objType = 0x80 then .numberPtr
  else if objType = 0x83 then .singleContainer
  else if objType = 0xF0 then .function
  else if objType = 0xF1 then .typeDef
  else if objType = 0xF2 then .blob
  else
    let mainType := objType >>> 4
    if mainType = 0 ∨ mainType = 1 then .number
    else if mainType = 2 then .boolean
    else if mainType = 4 then .array
    else if mainType = 7 then .ref
    else .generic

/-- Claim C1 fails on the code: the byte string
`00 08 40 36 20 02 48 69` is an even-length record of the generic
variant (type tag 0x36 has no specific handler) with one opaque byte
between payload start and the label chunk of the label `Hi` — a shape
the label-discovery scan is built to accept. Its sanity check passes
(the generic `checkSanity` is unconditionally true), yet re-serializing
the parsed record appends a pad byte after the odd-length label chunk
and grows the record to 9 bytes. -/
theorem c1_counterexample :
    newConnectorObjectKind 0x36 = ConnKind.generic ∧
    genericCheckSanity (genericParseRSRCData [0, 8, 64, 54, 32, 2, 72, 105]) = true ∧
    genericSerializeParse [0, 8, 64, 54, 32, 2, 72, 105]
      = [0, 9, 64, 54, 32, 2, 72, 105, 0] ∧
    ([0, 9, 64, 54, 32, 2, 72, 105, 0] : List Nat) ≠ [0, 8, 64, 54, 32, 2, 72, 105] := by
  decide

/-- Claim C2's acceptance rule taken at its word: candidate `i` is
accepted when the byte at `i` equals the count of bytes that follow it
(no trailing-zero stripping) and every following byte is carriage
return, line feed, tab, or at least 32. -/
def c2ClaimAccept (wholeData : List Nat) (i : Nat) : Bool :=
  decide (wholeData.getD i 0 = wholeData.length - i - 1) &&
    (wholeData.drop (i + 1)).all labelByteOk

/-- Claim C2's algorithm taken at its word: first accepted position in
the scan window, with the label being all bytes that follow it. -/
def c2ClaimFindLabel (wholeData : List Nat) : Option (Nat × List Nat) :=
  match ((List.range wholeData.length).drop (wholeData.length - 256)).find?
      (c2ClaimAccept wholeData) with
  | some i => some (i, wholeData.drop (i + 1))
  | none => none

/-- Claim C2 fails on the code: on the record `00 08 40 36 02 48 69 00`
(label chunk `02 48 69` for `Hi`, plus one zero pad byte) the code
strips the trailing zero first and accepts position 0 with label `Hi`,
while the rule as claimed rejects position 0 (three bytes follow, not
two, and one of them is the unprintable zero) and instead accepts the
final zero byte as a zero-length claimed count, yielding the empty
label. -/
theorem c2_counterexample :
    (genericParseRSRCData [0, 8, 64, 54, 2, 72, 105, 0]).label = some [72, 105] ∧
    findLabel [2, 72, 105, 0] = some (0, [72, 105]) ∧
    c2ClaimFindLabel [2, 72, 105, 0] = some (3, []) ∧
    some ((3 : Nat), ([] : List Nat)) ≠ some ((0 : Nat), ([72, 105] : List Nat)) := by
  decide

/-- Acceptance rule the code actually implements: after stripping a
single trailing zero byte (when the final byte is zero), position `i` is
accepted when the byte at `i` is a positive count equal to the number of
stripped-tail bytes that follow `i`, all of them carriage return, line
feed, tab, or at least 32. -/
def c2AmendedAccept (wholeData : List Nat) (i : Nat) : Bool :=
  let wd := stripOneZero wholeData
  decide (1 ≤ (wd.drop i).headD 0) &&
    decide (wd.length - i = (wd.drop i).headD 0 + 1) &&
    (wd.drop (i + 1)).all labelByteOk

theorem validLabelLength_pos_iff (wd : List Nat) (i : Nat) :
    0 < validLabelLength wd i ↔ c2AmendedAccept wd i = true := by
  unfold validLabelLength c2AmendedAccept
  by_cases h1 : (stripOneZero wd).length - i = ((stripOneZero wd).drop i).headD 0 + 1
  · by_cases h2 : ((stripOneZero wd).drop (i + 1)).all labelByteOk = true
    · rw [if_pos (by simp [h1, h2])]
      simp only [h2, decide_eq_true h1, Bool.and_true, Bool.and_eq_true,
        decide_eq_true_eq]
      omega
    · rw [if_neg (by simp [h2])]
      simp [h2]
  · rw [if_neg (by
      simp only [Bool.and_eq_true, decide_eq_true_eq, not_and]
      intro hc
      exact absurd hc h1)]
    simp only [Nat.lt_irrefl, false_iff]
    intro hacc
    simp only [Bool.and_eq_true, decide_eq_true_eq] at hacc
    exact h1 hacc.1.2

theorem validLabelLength_of_accept (wd : List Nat) (i : Nat)
    (h : c2AmendedAccept wd i = true) :
    validLabelLength wd i = ((stripOneZero wd).drop i).headD 0 := by
  unfold c2AmendedAccept at h
  simp only [Bool.and_eq_true, decide_eq_true_eq] at h
  unfold validLabelLength
  rw [if_pos (by simp [h.1.2, h.2])]

theorem findLabelScan_eq_find (wd : List Nat) (cand : List Nat) :
    findLabelScan wd cand =
      match cand.find? (c2AmendedAccept wd) with
      | some i => some (i, (wd.drop (i + 1)).take (((stripOneZero wd).drop i).headD 0))
      | none => none := by
  induction cand with
  | nil => rfl
  | cons i rest ih =>
    by_cases h : c2AmendedAccept wd i = true
    · have hpos : 0 < validLabelLength wd i := (validLabelLength_pos_iff wd i).2 h
      simp only [findLabelScan, List.find?, h, if_pos hpos]
      rw [validLabelLength_of_accept wd i h]
    · have hpos : ¬ 0 < validLabelLength wd i := by
        rw [validLabelLength_pos_iff]
        simp [h]
      simp only [findLabelScan, List.find?, if_neg hpos]
      rw [ih]
      simp [h]

/-- Claim C2, amended: for every record with the HasLabel flag set,
label discovery scans candidate positions `i` over the bytes remaining
after the variant payload, from `max(len - 256, 0)` up to the record
end; it first strips a single trailing zero byte (when the final byte is
zero), accepts the first `i` at which the byte at `i` is a positive
count equal to the number of stripped bytes that follow `i`, with every
one of those bytes a carriage return, line feed, tab, or at least 32,
and sets the label to that count of bytes following `i`; if no position
is accepted the label is set to the empty byte string (with a warning
recorded). -/
theorem c2_label_discovery (oflags : Nat) (wholeData : List Nat)
    (hfl : hasLabelFlag oflags = true) :
    parseRSRCDataFinishLabel oflags wholeData =
      some (match ((List.range wholeData.length).drop (wholeData.length - 256)).find?
          (c2AmendedAccept wholeData) with
        | some i => (wholeData.drop (i + 1)).take (((stripOneZero wholeData).drop i).headD 0)
        | none => []) := by
  unfold parseRSRCDataFinishLabel findLabel
  rw [if_pos hfl, findLabelScan_eq_find]
  cases ((List.range wholeData.length).drop (wholeData.length - 256)).find?
      (c2AmendedAccept wholeData) with
  | none => rfl
  | some i => rfl

/-- Claim C2 amended theorem, applied: the counterexample record's tail
`02 48 69 00` yields the label `Hi` under the stripped-tail rule. -/
theorem c2_label_discovery_witness :
    parseRSRCDataFinishLabel 64 [2, 72, 105, 0] = some [72, 105] := by
  rw [c2_label_discovery 64 [2, 72, 105, 0] (by decide)]
  decide

theorem toBytesBE_two (n : Nat) : toBytesBE 2 n = [n / 256 % 256, n % 256] := by
  simp [toBytesBE, List.range_succ]

theorem toBytesBE_one (n : Nat) : toBytesBE 1 n = [n % 256] := by
  simp [toBytesBE, List.range_succ]

theorem toBytesBE_one_of_lt (n : Nat) (h : n < 256) : toBytesBE 1 n = [n] := by
  rw [toBytesBE_one, Nat.mod_eq_of_lt h]

theorem bytesToNat_two (a b : Nat) : bytesToNat [a, b] = a * 256 + b := by
  simp [bytesToNat]

theorem bytesToNat_toBytesBE_two (n : Nat) (h : n < 65536) :
    bytesToNat (toBytesBE 2 n) = n := by
  rw [toBytesBE_two, bytesToNat_two]
  have h1 : n / 256 < 256 := by omega
  rw [Nat.mod_eq_of_lt h1]
  omega

theorem hasLabelFlag_eq_testBit (f : Nat) : hasLabelFlag f = f.testBit 6 := by
  unfold hasLabelFlag
  rw [show (64 : Nat) = 2 ^ 6 from rfl, Nat.and_two_pow]
  cases hb : f.testBit 6 <;> simp [hb]

theorem clearHasLabel_of_not_flag (f : Nat) (h : hasLabelFlag f = false) :
    clearHasLabel f = f := by
  rw [hasLabelFlag_eq_testBit] at h
  unfold clearHasLabel
  simp [h]

theorem or_64_of_flag (f : Nat) (h : hasLabelFlag f = true) : f ||| 64 = f := by
  rw [hasLabelFlag_eq_testBit] at h
  apply Nat.eq_of_testBit_eq
  intro j
  rw [Nat.testBit_or]
  by_cases hj : j = 6
  · subst hj
    simp [h]
  · have h64 : (64 : Nat).testBit j = false := by
      rw [show (64 : Nat) = 2 ^ 6 from rfl]
      exact Nat.testBit_two_pow_of_ne (Ne.symm hj)
    simp [h64]

theorem findLabelScan_some (wd : List Nat) (cand : List Nat) (r : Nat × List Nat)
    (h : findLabelScan wd cand = some r) :
    r.2 = (wd.drop (r.1 + 1)).take (validLabelLength wd r.1) ∧
      0 < validLabelLength wd r.1 := by
  induction cand with
  | nil => simp [findLabelScan] at h
  | cons j rest ih =>
    by_cases hj : 0 < validLabelLength wd j
    · simp only [findLabelScan, if_pos hj, Option.some.injEq] at h
      rw [← h]
      exact ⟨rfl, hj⟩
    · simp only [findLabelScan, if_neg hj] at h
      exact ih h

theorem validLabelLength_le (wd : List Nat) (i : Nat) (h : ∀ x ∈ wd, x < 256) :
    validLabelLength wd i ≤ 255 := by
  simp only [validLabelLength]
  split
  · cases hd : (stripOneZero wd).drop i with
    | nil => simp [hd]
    | cons a t =>
      have ha : a ∈ (stripOneZero wd).drop i := by
        rw [hd]
        exact List.mem_cons_self a t
      have ha2 : a ∈ stripOneZero wd := List.mem_of_mem_drop ha
      have ha3 : a ∈ wd := by
        unfold stripOneZero at ha2
        split at ha2
        · exact List.dropLast_subset wd ha2
        · exact ha2
      have := h a ha3
      simp [hd]
      omega
  · omega

/-- A labeled record's tail is canonical: the label chunk found by label
discovery starts at the discovered position and runs, as the emitter
would write it (length byte, label bytes, one zero pad exactly when the
chunk length is odd), to the end of the record. -/
def canonicalLabelTail (b : List Nat) : Bool :=
  match findLabel (b.drop 4) with
  | some r =>
      decide (b.drop (4 + r.1)
        = r.2.length :: (r.2 ++ (if (r.2.length + 1) % 2 = 1 then [0] else [])))
  | none => false

/-- Claim C1, amended: re-serializing a parsed catalog record of the
generic variant reproduces its bytes exactly, for every byte string
whose header length field matches its actual length (below the
`0xFFFF` wide-form sentinel) and whose label tail, when the HasLabel
flag is set, is canonical in the sense of `canonicalLabelTail`; records
carrying a non-canonical label tail (an odd-length gap before the label
chunk, or padding the emitter would not produce) re-serialize with
corrected padding instead, as the counterexample shows. -/
theorem c1_roundtrip (b : List Nat)
    (hlen : 4 ≤ b.length) (hsz : b.length < 0xFFFF)
    (hbytes : ∀ x ∈ b, x < 256)
    (hhdr : b.take 2 = toBytesBE 2 b.length)
    (hlab : hasLabelFlag (b.getD 2 0) = true → canonicalLabelTail b = true) :
    genericSerializeParse b = b := by
  rcases b with _ | ⟨b0, _ | ⟨b1, _ | ⟨b2, _ | ⟨b3, rest⟩⟩⟩⟩ <;> simp at hlen
  have hn : (b0 :: b1 :: b2 :: b3 :: rest).length = rest.length + 4 := rfl
  rw [hn] at hsz hhdr
  have hne : rest.length + 4 ≠ 0xFFFF := by omega
  have hv : readUInt (b0 :: b1 :: b2 :: b3 :: rest) 0 2 = rest.length + 4 := by
    unfold readUInt readBytes
    rw [List.drop_zero, show (b0 :: b1 :: b2 :: b3 :: rest).take 2 = [b0, b1] from rfl,
      show [b0, b1] = (b0 :: b1 :: b2 :: b3 :: rest).take 2 from rfl, hhdr]
    exact bytesToNat_toBytesBE_two _ (by omega)
  have hfl2 : readUInt (b0 :: b1 :: b2 :: b3 :: rest) 2 1 = b2 := by
    unfold readUInt readBytes bytesToNat
    simp
  have hty3 : readUInt (b0 :: b1 :: b2 :: b3 :: rest) 3 1 = b3 := by
    unfold readUInt readBytes bytesToNat
    simp
  have hhead : parseRSRCDataHeader (b0 :: b1 :: b2 :: b3 :: rest)
      = (b3, b2, rest.length + 4, 4) := by
    simp only [parseRSRCDataHeader, readU2p2, hv, hne, if_false, ite_false,
      if_neg hne, hfl2, hty3]
  have hdrop : (b0 :: b1 :: b2 :: b3 :: rest).drop 4 = rest := rfl
  have hparse : genericParseRSRCData (b0 :: b1 :: b2 :: b3 :: rest)
      = { oflags := b2, otype := b3, label := parseRSRCDataFinishLabel b2 rest
          rawData := b0 :: b1 :: b2 :: b3 :: rest } := by
    simp only [genericParseRSRCData, hhead, hdrop]
  rw [genericSerializeParse, hparse]
  have hb2 : b2 < 256 := hbytes b2 (by simp)
  have hb3 : b3 < 256 := hbytes b3 (by simp)
  by_cases hfl : hasLabelFlag b2 = true
  · -- labeled case: the canonical-tail hypothesis applies
    have hcanon : canonicalLabelTail (b0 :: b1 :: b2 :: b3 :: rest) = true := by
      apply hlab
      exact hfl
    unfold canonicalLabelTail at hcanon
    rw [hdrop] at hcanon
    cases hfind : findLabel rest with
    | none =>
        rw [hfind] at hcanon
        simp at hcanon
    | some r =>
        rw [hfind] at hcanon
        simp only [decide_eq_true_eq] at hcanon
        have hdd : (b0 :: b1 :: b2 :: b3 :: rest).drop (4 + r.1) = rest.drop r.1 := by
          rw [Nat.add_comm 4 r.1]
          rfl
        rw [hdd] at hcanon
        have hlabel : parseRSRCDataFinishLabel b2 rest = some r.2 := by
          unfold parseRSRCDataFinishLabel
          rw [if_pos hfl, hfind]
        have hprep : genericPrepareRSRCData b2 (b0 :: b1 :: b2 :: b3 :: rest)
            = rest.take r.1 := by
          simp only [genericPrepareRSRCData, hdrop, if_pos hfl, hfind]
        have hlablen : r.2.length ≤ 255 := by
          have hs := findLabelScan_some rest _ r hfind
          have h1 : r.2.length ≤ validLabelLength rest r.1 := by
            rw [hs.1]
            exact (List.length_take _ _).le.trans (Nat.min_le_left _ _)
          have h2 : validLabelLength rest r.1 ≤ 255 := by
            apply validLabelLength_le
            intro x hx
            exact hbytes x (by simp [hx])
          omega
        have h255 : ¬ r.2.length > 255 := by omega
        have hfin : prepareRSRCDataFinish b2 (some r.2)
            = (b2 ||| 64, some r.2,
               r.2.length :: (r.2 ++ (if (r.2.length + 1) % 2 = 1 then [0] else []))) := by
          simp only [prepareRSRCDataFinish, if_neg h255, List.length_cons]
          by_cases hodd : (r.2.length + 1) % 2 = 1
          · simp [hodd]
          · have h0 : (r.2.length + 1) % 2 = 0 := by omega
            simp [hodd, h0]
        simp only [genericUpdateData, hlabel, hprep, hfin]
        rw [← hcanon, List.take_append_drop]
        rw [or_64_of_flag b2 hfl]
        rw [toBytesBE_one_of_lt b2 hb2, toBytesBE_one_of_lt b3 hb3]
        rw [← hhdr]
        rfl
  · -- unlabeled case
    have hflf : hasLabelFlag b2 = false := by
      cases hq : hasLabelFlag b2
      · rfl
      · exact absurd hq hfl
    have hlabel : parseRSRCDataFinishLabel b2 rest = none := by
      unfold parseRSRCDataFinishLabel
      rw [if_neg (by simp [hflf])]
    have hprep : genericPrepareRSRCData b2 (b0 :: b1 :: b2 :: b3 :: rest) = rest := by
      simp only [genericPrepareRSRCData, hdrop]
      rw [if_neg (by simp [hflf])]
    simp only [genericUpdateData, hlabel, hprep, prepareRSRCDataFinish,
      List.append_nil]
    rw [clearHasLabel_of_not_flag b2 hflf]
    rw [toBytesBE_one_of_lt b2 hb2, toBytesBE_one_of_lt b3 hb3]
    rw [← hhdr]
    rfl

/-- Claim C1 amended theorem, applied: the 10-byte Void-with-label
record of spec scenario S1, retagged 0x36 so the generic handler is
dispatched, round-trips exactly. -/
theorem c1_roundtrip_witness :
    genericSerializeParse [0, 10, 64, 54, 5, 72, 101, 108, 108, 111]
      = [0, 10, 64, 54, 5, 72, 101, 108, 108, 111] :=
  c1_roundtrip [0, 10, 64, 54, 5, 72, 101, 108, 108, 111]
    (by decide) (by decide) (by decide) (by decide) (by decide)

/-- `ConnectorObjectTypeDef.parseRSRCNestedConnector`: at `pos`, read
the header of the nested connector, then seek back to `pos` and hand the
nested object `obj_len - 4` bytes (the length field of a nested
connector is 4 bytes larger than the real thing). Returns the nested
object's `(obj_type, obj_flags, size, raw_data)` as set by
`initWithRSRC`, paired with the header length field `obj_len`. -/
def typeDefParseNestedConnector (data : List Nat) (pos : Nat) :
    (Nat × Nat × Nat × List Nat) × Nat :=
  ((readUInt data (pos + (readU2p2 data pos).2 + 1) 1,
    readUInt data (pos + (readU2p2 data pos).2) 1,
    (readU2p2 data pos).1 - 4,
    (data.drop pos).take ((readU2p2 data pos).1 - 4)),
   (readU2p2 data pos).1)

/-- The nested-connector emission inside
`ConnectorObjectTypeDef.prepareRSRCData`: given the nested connector's
rebuilt payload (`prepareRSRCData` plus `prepareRSRCDataFinish`), the
head carries `len(cli_data_buf) + 8` — the size of a nested connector
is computed differently than in a main connector — then the nested
flags and type bytes. -/
def typeDefPrepareNestedPart (cliDataBuf : List Nat)
    (nestedOflags nestedOtype : Nat) : List Nat :=
  toBytesBE 2 (cliDataBuf.length + 8) ++ toBytesBE 1 nestedOflags
    ++ toBytesBE 1 nestedOtype ++ cliDataBuf

/-- Claim C3: for every TypeDef record, the nested sub-connector's
length header field is encoded four bytes larger than the nested
connector's actual byte span. On write the emitted length field equals
the emitted nested span (4-byte head plus payload) plus 4; on read the
nested connector is consumed with the length field minus 4, recovering
exactly the emitted bytes and leaving the rest untouched. -/
theorem c3_nested_length_bias (buf rest : List Nat) (fl ty : Nat)
    (hsz : buf.length + 8 < 0xFFFF) (hfl : fl < 256) (hty : ty < 256) :
    bytesToNat ((typeDefPrepareNestedPart buf fl ty).take 2)
      = (typeDefPrepareNestedPart buf fl ty).length + 4 ∧
    typeDefParseNestedConnector (typeDefPrepareNestedPart buf fl ty ++ rest) 0
      = ((ty, fl, (typeDefPrepareNestedPart buf fl ty).length,
          typeDefPrepareNestedPart buf fl ty),
         (typeDefPrepareNestedPart buf fl ty).length + 4) := by
  have hlen : (typeDefPrepareNestedPart buf fl ty).length = buf.length + 4 := by
    simp [typeDefPrepareNestedPart, toBytesBE_two, toBytesBE_one]
  have htake : (typeDefPrepareNestedPart buf fl ty).take 2
      = toBytesBE 2 (buf.length + 8) := by
    simp [typeDefPrepareNestedPart, toBytesBE_two]
  have hval : bytesToNat ((typeDefPrepareNestedPart buf fl ty).take 2)
      = buf.length + 8 := by
    rw [htake]
    exact bytesToNat_toBytesBE_two _ (by omega)
  constructor
  · rw [hval, hlen]
  · have hexp : typeDefPrepareNestedPart buf fl ty
        = (buf.length + 8) / 256 % 256 :: (buf.length + 8) % 256 :: fl :: ty :: buf := by
      simp [typeDefPrepareNestedPart, toBytesBE_two, toBytesBE_one_of_lt fl hfl,
        toBytesBE_one_of_lt ty hty]
    have hread : readUInt (typeDefPrepareNestedPart buf fl ty ++ rest) 0 2
        = buf.length + 8 := by
      unfold readUInt readBytes
      rw [List.drop_zero, List.take_append_of_le_length (by omega)]
      exact hval
    have hr : readU2p2 (typeDefPrepareNestedPart buf fl ty ++ rest) 0
        = (buf.length + 8, 2) := by
      unfold readU2p2
      rw [hread, if_neg (by omega)]
    have h2 : readUInt (typeDefPrepareNestedPart buf fl ty ++ rest) 2 1 = fl := by
      rw [hexp]
      unfold readUInt readBytes bytesToNat
      simp
    have h3 : readUInt (typeDefPrepareNestedPart buf fl ty ++ rest) 3 1 = ty := by
      rw [hexp]
      unfold readUInt readBytes bytesToNat
      simp
    have hsub : buf.length + 8 - 4 = buf.length + 4 := by omega
    have htk : ((typeDefPrepareNestedPart buf fl ty ++ rest).drop 0).take
        (buf.length + 8 - 4) = typeDefPrepareNestedPart buf fl ty := by
      rw [List.drop_zero, hsub, List.take_append_of_le_length (by omega), ← hlen,
        List.take_length]
    unfold typeDefParseNestedConnector
    rw [hr]
    simp only [Nat.zero_add, Nat.reduceAdd]
    rw [h2, h3, htk, hlen, hsub]

/-- Claim C3 theorem, applied: a nested Void connector (flags 0, type 0,
empty payload) emits as `00 08 00 00` — spec scenario S5's nested
length field 8 for a real span of 4 — and parses back exactly. -/
theorem c3_nested_length_bias_witness :
    bytesToNat ((typeDefPrepareNestedPart [] 0 0).take 2)
      = (typeDefPrepareNestedPart [] 0 0).length + 4 ∧
    typeDefParseNestedConnector (typeDefPrepareNestedPart [] 0 0 ++ [7, 7]) 0
      = ((0, 0, (typeDefPrepareNestedPart [] 0 0).length,
          typeDefPrepareNestedPart [] 0 0),
         (typeDefPrepareNestedPart [] 0 0).length + 4) :=
  c3_nested_length_bias [] [7, 7] 0 0 (by decide) (by decide) (by decide)

/-- The thrall-source list writer inside
`ConnectorObjectFunction.prepareRSRCData`, for one client: each source
index is emitted as one byte, incremented first when the file version is
at least (8,2,0,beta) (`ge820`), then a zero terminator; the whole
thrall block is only written when the version is at least (8,0,0,beta)
and `hasThrall` is non-zero. -/
def prepareThrallSources (ge820 : Bool) : List Nat → List Nat
  | [] => toBytesBE 1 0
  | k :: ks => toBytesBE 1 (if ge820 then k + 1 else k) ++ prepareThrallSources ge820 ks

/-- The thrall-source list reader inside
`ConnectorObjectFunction.parseRSRCData`, for one client: read bytes
until a zero (or the end of data, where a read yields the empty string
and `int.from_bytes` gives 0); each non-zero byte is decremented when
the file version is at least (8,2,0,beta). Returns the collected
sources and the unconsumed bytes. -/
def parseThrallSources (ge820 : Bool) : List Nat → List Nat × List Nat
  | [] => ([], [])
  | k :: r =>
      if k = 0 then ([], r)
      else
        let s := parseThrallSources ge820 r
        ((if ge820 then k - 1 else k) :: s.1, s.2)

/-- Claim C4: under file version at least (8,2,0,beta) with a non-zero
`has_thrall` field, each thrall source index `k` is written to disk as
the byte `k + 1`, each non-zero byte `k` read from disk is stored as
`k - 1`, and the byte 0 terminates each client's thrall-source list in
both directions: writing a source list and reading it back recovers it
exactly, leaving the following bytes unconsumed. -/
theorem c4_thrall_encoding (sources rest : List Nat)
    (h : ∀ k ∈ sources, k + 1 < 256) :
    prepareThrallSources true sources = sources.map (fun k => k + 1) ++ [0] ∧
    parseThrallSources true (sources.map (fun k => k + 1) ++ [0] ++ rest)
      = (sources, rest) := by
  induction sources with
  | nil =>
      constructor
      · rfl
      · rfl
  | cons k ks ih =>
      have hk : k + 1 < 256 := h k (by simp)
      have ihk := ih (fun x hx => h x (by simp [hx]))
      constructor
      · simp only [prepareThrallSources, if_true, ite_true]
        rw [toBytesBE_one_of_lt _ hk, ihk.1]
        simp
      · simp only [List.map_cons, List.cons_append]
        simp only [parseThrallSources, if_neg (by omega : ¬ k + 1 = 0)]
        rw [show (ks.map (fun k => k + 1) ++ [0]) ++ rest
            = ks.map (fun k => k + 1) ++ [0] ++ rest from rfl, ihk.2]
        simp

/-- Claim C4 theorem, applied: the source list `[0, 2]` is written as
bytes `01 03 00` and read back as `[0, 2]` with the tail preserved. -/
theorem c4_thrall_encoding_witness :
    prepareThrallSources true [0, 2] = [1, 3, 0] ∧
    parseThrallSources true ([1, 3] ++ [0] ++ [9]) = ([0, 2], [9]) := by
  have h := c4_thrall_encoding [0, 2] [9] (by decide)
  constructor
  · rw [h.1]
    rfl
  · have h2 := h.2
    rw [show ([0, 2].map (fun k => k + 1)) = [1, 3] from rfl] at h2
    exact h2

/-- The label contribution to `expectedRSRCSize`, identical in every
variant: one length byte plus the label bytes, rounded up to even. -/
def labelExtraLen (label : Option (List Nat)) : Nat :=
  match label with
  | none => 0
  | some l =>
      if (1 + l.length) % 2 > 0 then 1 + l.length + (2 - (1 + l.length) % 2)
      else 1 + l.length

/-- `ConnectorObjectVoid.expectedRSRCSize`: the 4-byte header plus the
label tail. -/
def voidExpectedRSRCSize (label : Option (List Nat)) : Nat :=
  4 + labelExtraLen label

/-- `ConnectorObjectVoid.checkSanity`: false exactly when the raw size
differs from the expected size. -/
def voidCheckSanity (label : Option (List Nat)) (rawData : List Nat) : Bool :=
  decide (rawData.length = voidExpectedRSRCSize label)

/-- One entry of a Number connector's enum or physical-unit table. -/
structure NumValue where
  label : List Nat
  intval1 : Option Nat
  intval2 : Option Nat
deriving DecidableEq, Repr

/-- `ConnectorObjectNumber.isEnum`: full type is UnitUInt8/16/32. -/
def numberIsEnum (otype : Nat) : Bool :=
  otype = 0x15 || otype = 0x16 || otype = 0x17

/-- `ConnectorObjectNumber.isPhys`: full type is a UnitFloat or
UnitComplex kind. -/
def numberIsPhys (otype : Nat) : Bool :=
  otype = 0x19 || otype = 0x1A || otype = 0x1B ||
    otype = 0x1C || otype = 0x1D || otype = 0x1E

/-- `ConnectorObjectNumber.expectedRSRCSize`: header, the `prop1` byte,
and the label tail (the enum or unit table is not counted). -/
def numberExpectedRSRCSize (label : Option (List Nat)) : Nat :=
  4 + 1 + labelExtraLen label

/-- `ConnectorObjectNumber.checkSanity`: `prop1` must be zero, an enum
or physical table must be non-empty, a padding byte must be zero, and
the raw size must match the expected size. -/
def numberCheckSanity (otype prop1 : Nat) (values : List NumValue)
    (padding1 : List Nat) (label : Option (List Nat)) (rawData : List Nat) : Bool :=
  decide (prop1 = 0) &&
    (!(numberIsEnum otype || numberIsPhys otype) || decide (1 ≤ values.length)) &&
    (decide (padding1.length = 0) || decide (padding1 = [0])) &&
    decide (rawData.length = numberExpectedRSRCSize label)

/-- `ConnectorObjectTag.expectedRSRCSize`. -/
def tagExpectedRSRCSize (label : Option (List Nat)) : Nat :=
  4 + 4 + labelExtraLen label

/-- `ConnectorObjectTag.checkSanity`: `prop1` must be `0xFFFFFFFF` and
the raw size must match. -/
def tagCheckSanity (prop1 : Nat) (label : Option (List Nat))
    (rawData : List Nat) : Bool :=
  decide (prop1 = 0xFFFFFFFF) && decide (rawData.length = tagExpectedRSRCSize label)

/-- `ConnectorObjectBlob.expectedRSRCSize`. -/
def blobExpectedRSRCSize (label : Option (List Nat)) : Nat :=
  4 + 4 + labelExtraLen label

/-- `ConnectorObjectBlob.checkSanity`: `prop1` must be `0xFFFFFFFF` and
the raw size must match. -/
def blobCheckSanity (prop1 : Nat) (label : Option (List Nat))
    (rawData : List Nat) : Bool :=
  decide (prop1 = 0xFFFFFFFF) && decide (rawData.length = blobExpectedRSRCSize label)

/-- A client link as held by Function and single-container records:
catalog index (-1 marks a nested client) and, for nested clients, the
owned nested object. -/
structure FnClient where
  index : Int
  nested : Option Unit
deriving DecidableEq, Repr

/-- A client link as held by Array, Cluster and Reference records:
catalog index and per-link flags. -/
structure CliRef where
  index : Int
  flags : Nat
deriving DecidableEq, Repr

/-- `ConnectorObjectFunction.expectedRSRCSize`, parameterized by the
result of `isGreaterOrEqVersion(ver, 8, 0)` (in the missing `LVmisc`):
header, client count and indices, fflags and pattern, the thrall count
word plus wide per-client flags on newer versions or narrow flags on
older, and the label tail. -/
def functionExpectedRSRCSize (verGE80 : Bool) (clientCount : Nat)
    (label : Option (List Nat)) : Nat :=
  4 + (2 + 2 * clientCount) + (2 + 2) +
    (if verGE80 then 2 + 4 * clientCount else 2 * clientCount) +
    labelExtraLen label

/-- `ConnectorObjectFunction.checkSanity`: at most 125 clients; when the
VCTP block is available (`vctpCount` is its record count), every nested
client must own its object and every other client index must be in
range; and the raw size must match. -/
def functionCheckSanity (verGE80 : Bool) (clients : List FnClient)
    (vctpCount : Option Nat) (label : Option (List Nat)) (rawData : List Nat) : Bool :=
  decide (clients.length ≤ 125) &&
    (match vctpCount with
     | none => true
     | some sz => clients.all (fun c =>
         if c.index = -1 then c.nested.isSome else decide (c.index < (sz : Int)))) &&
    decide (rawData.length = functionExpectedRSRCSize verGE80 clients.length label)

/-- A TypeDef client: catalog index (-1 for the owned nested connector)
paired with the nested connector's own `expectedRSRCSize()` result,
which TypeDef's expected size sums over. -/
structure TDClient where
  index : Int
  nestedExpectedSize : Nat
deriving DecidableEq, Repr

/-- `ConnectorObjectTypeDef.expectedRSRCSize`: header, `flag1`, the
label table (one length byte plus bytes per entry), each client's
nested expected size, and the label tail. -/
def typeDefExpectedRSRCSize (labels : List (List Nat)) (clients : List TDClient)
    (label : Option (List Nat)) : Nat :=
  4 + (4 + (labels.map (fun s => 1 + s.length)).sum) +
    (clients.map (fun c => c.nestedExpectedSize)).sum + labelExtraLen label

/-- `ConnectorObjectTypeDef.checkSanity`: exactly one client, every
client nested (index -1), and the raw size must match. -/
def typeDefCheckSanity (labels : List (List Nat)) (clients : List TDClient)
    (label : Option (List Nat)) (rawData : List Nat) : Bool :=
  decide (clients.length = 1) &&
    clients.all (fun c => decide (c.index = -1)) &&
    decide (rawData.length = typeDefExpectedRSRCSize labels clients label)

/-- `ConnectorObjectRepeatedBlock.expectedRSRCSize`. -/
def repeatedBlockExpectedRSRCSize (label : Option (List Nat)) : Nat :=
  4 + 4 + 2 + labelExtraLen label

/-- `ConnectorObjectRepeatedBlock.checkSanity`: size only. -/
def repeatedBlockCheckSanity (label : Option (List Nat)) (rawData : List Nat) : Bool :=
  decide (rawData.length = repeatedBlockExpectedRSRCSize label)

/-- `ConnectorObjectCluster.expectedRSRCSize`. -/
def clusterExpectedRSRCSize (clientCount : Nat) (label : Option (List Nat)) : Nat :=
  4 + 2 + 2 * clientCount + labelExtraLen label

/-- `ConnectorObjectCluster.checkSanity`: at most 500 clients and the
raw size must match. -/
def clusterCheckSanity (clients : List CliRef) (label : Option (List Nat))
    (rawData : List Nat) : Bool :=
  decide (clients.length ≤ 500) &&
    decide (rawData.length = clusterExpectedRSRCSize clients.length label)

/-- `ConnectorObjectMeasureData.expectedRSRCSize`. -/
def measureDataExpectedRSRCSize (label : Option (List Nat)) : Nat :=
  4 + 2 + labelExtraLen label

/-- `ConnectorObjectMeasureData.checkSanity`: `clusterFmt` at most 127
and the raw size must match. -/
def measureDataCheckSanity (clusterFmt : Nat) (label : Option (List Nat))
    (rawData : List Nat) : Bool :=
  decide (clusterFmt ≤ 127) &&
    decide (rawData.length = measureDataExpectedRSRCSize label)

/-- `ConnectorObjectFixedPoint.expectedRSRCSize`. -/
def fixedPointExpectedRSRCSize (label : Option (List Nat)) : Nat :=
  4 + 2 + 2 + labelExtraLen label

/-- `ConnectorObjectFixedPoint.checkSanity`: at most 500 clients and the
raw size must match. -/
def fixedPointCheckSanity (clients : List CliRef) (label : Option (List Nat))
    (rawData : List Nat) : Bool :=
  decide (clients.length ≤ 500) &&
    decide (rawData.length = fixedPointExpectedRSRCSize label)

/-- `ConnectorObjectSingleContainer.expectedRSRCSize`: two or four bytes
for the first client only (no header or label contribution). -/
def singleContainerExpectedRSRCSize (clients : List FnClient) : Nat :=
  match clients with
  | [] => 0
  | c :: _ => if c.index ≤ 0x7fff then 2 else 4

/-- `ConnectorObjectSingleContainer.checkSanity`: exactly one client,
the VCTP range check as in Function, and the raw size must match. -/
def singleContainerCheckSanity (clients : List FnClient) (vctpCount : Option Nat)
    (rawData : List Nat) : Bool :=
  decide (clients.length = 1) &&
    (match vctpCount with
     | none => true
     | some sz => clients.all (fun c =>
         if c.index = -1 then c.nested.isSome else decide (c.index < (sz : Int)))) &&
    decide (rawData.length = singleContainerExpectedRSRCSize clients)

/-- One Array dimension: the top flag byte and the 24-bit fixed size of
the packed `u32`. -/
structure ArrDim where
  flags : Nat
  fixedSize : Nat
deriving DecidableEq, Repr

/-- `ConnectorObjectArray.expectedRSRCSize`: dimension count word, four
bytes per dimension, two or four bytes per client index, and the label
tail (the 4-byte record header is not counted). -/
def arrayExpectedRSRCSize (dims : List ArrDim) (clients : List CliRef)
    (label : Option (List Nat)) : Nat :=
  2 + 4 * dims.length +
    (clients.map (fun c => if c.index ≤ 0x7fff then 2 else 4)).sum +
    labelExtraLen label

/-- `ConnectorObjectArray.checkSanity`: at most 64 dimensions, exactly
one client, bit 0x80 set in dimension 0's flags, and every client index
strictly below the record's own index unless the record is nested.
Reading dimension 0's flags raises `IndexError` on an empty dimension
list, modelled as `none`; there is no raw-size comparison. -/
def arrayCheckSanity (selfIndex : Int) (dims : List ArrDim)
    (clients : List CliRef) : Option Bool :=
  match dims with
  | [] => none
  | d0 :: _ =>
      some (decide (dims.length ≤ 64) && decide (clients.length = 1) &&
        (d0.flags &&& 0x80 ≠ 0) &&
        clients.all (fun c => decide (selfIndex = -1) || decide (c.index < selfIndex)))

/-- `ConnectorObjectRef.checkSanity`: the reference sub-object's own
sanity result when one exists (`refObjSane`, from the missing
`LVconnectorref` registry), and every client index strictly below the
record's own index unless the record is nested; there is no raw-size
comparison. -/
def refCheckSanity (refObjSane : Option Bool) (selfIndex : Int)
    (clients : List CliRef) : Bool :=
  (match refObjSane with
   | none => true
   | some s => s) &&
    clients.all (fun c => decide (selfIndex = -1) || decide (c.index < selfIndex))

/-- In-memory Array connector state. -/
structure ArrayConn where
  oflags : Nat
  otype : Nat
  dimensions : List ArrDim
  clients : List CliRef
  label : Option (List Nat)
  rawData : List Nat
deriving DecidableEq, Repr

/-- `ConnectorObjectArray.parseRSRCData`: header, `u16` dimension count,
one packed `u32` per dimension (flag byte in the top 8 bits, fixed size
in the low 24), one client index as a variable-size field with flags 0,
then the label tail. -/
def arrayParseRSRCData (b : List Nat) : ArrayConn :=
  let hd := parseRSRCDataHeader b
  let pos := hd.2.2.2
  let ndims := readUInt b pos 2
  let dims := (List.range ndims).map (fun i =>
    ArrDim.mk (readUInt b (pos + 2 + 4 * i) 4 >>> 24)
      (readUInt b (pos + 2 + 4 * i) 4 &&& 0xFFFFFF))
  let cpos := pos + 2 + 4 * ndims
  let cli := readU2p2 b cpos
  { oflags := hd.2.1, otype := hd.1
    dimensions := dims
    clients := [CliRef.mk (cli.1 : Int) 0]
    label := parseRSRCDataFinishLabel hd.2.1 (b.drop (cpos + cli.2))
    rawData := b }

/-- Claim C5 fails on the code: the Array variant's `checkSanity` has no
expected-size comparison. The 12-byte Array record
`00 0C 00 40 00 01 80 00 00 00 00 00` (one dimension with flags 0x80,
one client referencing index 0) parsed at catalog index 1 passes its
sanity check, although its raw size 12 differs from
`expectedRSRCSize() = 8`. -/
theorem c5_counterexample :
    newConnectorObjectKind 0x40 = ConnKind.array ∧
    arrayCheckSanity 1 (arrayParseRSRCData [0, 12, 0, 64, 0, 1, 128, 0, 0, 0, 0, 0]).dimensions
      (arrayParseRSRCData [0, 12, 0, 64, 0, 1, 128, 0, 0, 0, 0, 0]).clients = some true ∧
    (arrayParseRSRCData [0, 12, 0, 64, 0, 1, 128, 0, 0, 0, 0, 0]).rawData.length = 12 ∧
    arrayExpectedRSRCSize (arrayParseRSRCData [0, 12, 0, 64, 0, 1, 128, 0, 0, 0, 0, 0]).dimensions
      (arrayParseRSRCData [0, 12, 0, 64, 0, 1, 128, 0, 0, 0, 0, 0]).clients
      (arrayParseRSRCData [0, 12, 0, 64, 0, 1, 128, 0, 0, 0, 0, 0]).label = 8 ∧
    (12 : Nat) ≠ 8 := by
  decide

/-- Claim C5, amended: `checkSanity` returns false whenever the raw
data length differs from the variant's `expectedRSRCSize()`, for every
variant except Array, Ref, and the generic fallback `ConnectorObject`,
whose `checkSanity` implementations omit the expected-size comparison
(the base class also shares its check with Bool, LVVariant, CString,
PasString and NumberPtr records through the Void handler, which does
compare). -/
theorem c5_expected_size_checks :
    (∀ (label : Option (List Nat)) (raw : List Nat),
        raw.length ≠ voidExpectedRSRCSize label →
        voidCheckSanity label raw = false) ∧
    (∀ (otype prop1 : Nat) (values : List NumValue) (padding1 : List Nat)
        (label : Option (List Nat)) (raw : List Nat),
        raw.length ≠ numberExpectedRSRCSize label →
        numberCheckSanity otype prop1 values padding1 label raw = false) ∧
    (∀ (prop1 : Nat) (label : Option (List Nat)) (raw : List Nat),
        raw.length ≠ tagExpectedRSRCSize label →
        tagCheckSanity prop1 label raw = false) ∧
    (∀ (prop1 : Nat) (label : Option (List Nat)) (raw : List Nat),
        raw.length ≠ blobExpectedRSRCSize label →
        blobCheckSanity prop1 label raw = false) ∧
    (∀ (ge80 : Bool) (clients : List FnClient) (vctp : Option Nat)
        (label : Option (List Nat)) (raw : List Nat),
        raw.length ≠ functionExpectedRSRCSize ge80 clients.length label →
        functionCheckSanity ge80 clients vctp label raw = false) ∧
    (∀ (labels : List (List Nat)) (clients : List TDClient)
        (label : Option (List Nat)) (raw : List Nat),
        raw.length ≠ typeDefExpectedRSRCSize labels clients label →
        typeDefCheckSanity labels clients label raw = false) ∧
    (∀ (label : Option (List Nat)) (raw : List Nat),
        raw.length ≠ repeatedBlockExpectedRSRCSize label →
        repeatedBlockCheckSanity label raw = false) ∧
    (∀ (clients : List CliRef) (label : Option (List Nat)) (raw : List Nat),
        raw.length ≠ clusterExpectedRSRCSize clients.length label →
        clusterCheckSanity clients label raw = false) ∧
    (∀ (clusterFmt : Nat) (label : Option (List Nat)) (raw : List Nat),
        raw.length ≠ measureDataExpectedRSRCSize label →
        measureDataCheckSanity clusterFmt label raw = false) ∧
    (∀ (clients : List CliRef) (label : Option (List Nat)) (raw : List Nat),
        raw.length ≠ fixedPointExpectedRSRCSize label →
        fixedPointCheckSanity clients label raw = false) ∧
    (∀ (clients : List FnClient) (vctp : Option Nat) (raw : List Nat),
        raw.length ≠ singleContainerExpectedRSRCSize clients →
        singleContainerCheckSanity clients vctp raw = false) := by
  refine ⟨?_, ?_, ?_, ?_, ?_, ?_, ?_, ?_, ?_, ?_, ?_⟩
  · intro label raw h
    simp [voidCheckSanity, h]
  · intro otype prop1 values padding1 label raw h
    simp [numberCheckSanity, h]
  · intro prop1 label raw h
    simp [tagCheckSanity, h]
  · intro prop1 label raw h
    simp [blobCheckSanity, h]
  · intro ge80 clients vctp label raw h
    simp [functionCheckSanity, h]
  · intro labels clients label raw h
    simp [typeDefCheckSanity, h]
  · intro label raw h
    simp [repeatedBlockCheckSanity, h]
  · intro clients label raw h
    simp [clusterCheckSanity, h]
  · intro clusterFmt label raw h
    simp [measureDataCheckSanity, h]
  · intro clients label raw h
    simp [fixedPointCheckSanity, h]
  · intro clients vctp raw h
    simp [singleContainerCheckSanity, h]

/-- Claim C5 amended theorem, applied: every size-checking variant
rejects a concrete record whose raw size disagrees with its expected
size. -/
theorem c5_expected_size_checks_witness :
    voidCheckSanity none [0, 0, 0, 0, 0] = false ∧
    numberCheckSanity 1 0 [] [] none [0, 0, 0, 0] = false ∧
    tagCheckSanity 0xFFFFFFFF none [0, 0, 0, 0] = false ∧
    blobCheckSanity 0xFFFFFFFF none [0, 0, 0, 0] = false ∧
    functionCheckSanity false [] none none [] = false ∧
    typeDefCheckSanity [] [TDClient.mk (-1) 4] none [] = false ∧
    repeatedBlockCheckSanity none [] = false ∧
    clusterCheckSanity [] none [] = false ∧
    measureDataCheckSanity 0 none [] = false ∧
    fixedPointCheckSanity [] none [] = false ∧
    singleContainerCheckSanity [FnClient.mk 0 none] none [] = false :=
  ⟨c5_expected_size_checks.1 none _ (by decide),
   c5_expected_size_checks.2.1 1 0 [] [] none _ (by decide),
   c5_expected_size_checks.2.2.1 0xFFFFFFFF none _ (by decide),
   c5_expected_size_checks.2.2.2.1 0xFFFFFFFF none _ (by decide),
   c5_expected_size_checks.2.2.2.2.1 false [] none none [] (by decide),
   c5_expected_size_checks.2.2.2.2.2.1 [] [TDClient.mk (-1) 4] none [] (by decide),
   c5_expected_size_checks.2.2.2.2.2.2.1 none _ (by decide),
   c5_expected_size_checks.2.2.2.2.2.2.2.1 [] none [] (by decide),
   c5_expected_size_checks.2.2.2.2.2.2.2.2.1 0 none _ (by decide),
   c5_expected_size_checks.2.2.2.2.2.2.2.2.2.1 [] none [] (by decide),
   c5_expected_size_checks.2.2.2.2.2.2.2.2.2.2 [FnClient.mk 0 none] none [] (by decide)⟩

/-- Claim C6: for every Array record (with a non-empty dimension list,
so its sanity check completes rather than raising on dimension 0) and
every Reference record, at a non-negative catalog index, the sanity
check returns false when any client index is greater than or equal to
the record's own index; nested clients (index -1) cannot trigger this,
and a record that is itself nested (index -1) is exempt. -/
theorem c6_backward_references :
    (∀ (selfIndex : Int) (dims : List ArrDim) (clients : List CliRef) (c : CliRef),
        0 ≤ selfIndex → c ∈ clients → selfIndex ≤ c.index → dims ≠ [] →
        arrayCheckSanity selfIndex dims clients = some false) ∧
    (∀ (refObjSane : Option Bool) (selfIndex : Int) (clients : List CliRef) (c : CliRef),
        0 ≤ selfIndex → c ∈ clients → selfIndex ≤ c.index →
        refCheckSanity refObjSane selfIndex clients = false) := by
  constructor
  · intro selfIndex dims clients c h0 hc hge hd
    have hall : clients.all
        (fun x => decide (selfIndex = -1) || decide (x.index < selfIndex)) = false := by
      rw [List.all_eq_false]
      refine ⟨c, hc, ?_⟩
      simp only [Bool.or_eq_true, decide_eq_true_eq, not_or]
      omega
    cases dims with
    | nil => exact absurd rfl hd
    | cons d0 ds =>
        simp only [arrayCheckSanity, hall, Bool.and_false]
  · intro refObjSane selfIndex clients c h0 hc hge
    have hall : clients.all
        (fun x => decide (selfIndex = -1) || decide (x.index < selfIndex)) = false := by
      rw [List.all_eq_false]
      refine ⟨c, hc, ?_⟩
      simp only [Bool.or_eq_true, decide_eq_true_eq, not_or]
      omega
    simp only [refCheckSanity, hall, Bool.and_false]

/-- Claim C6 theorem, applied: an Array at index 2 whose only client
references index 2, and a Reference at index 1 whose client references
index 1, both fail their sanity checks. -/
theorem c6_backward_references_witness :
    arrayCheckSanity 2 [ArrDim.mk 128 0] [CliRef.mk 2 0] = some false ∧
    refCheckSanity none 1 [CliRef.mk 1 0] = false :=
  ⟨c6_backward_references.1 2 [ArrDim.mk 128 0] [CliRef.mk 2 0] (CliRef.mk 2 0)
      (by decide) (by decide) (by decide) (by decide),
   c6_backward_references.2 none 1 [CliRef.mk 1 0] (CliRef.mk 1 0)
      (by decide) (by decide) (by decide)⟩

/-- Claim C9: an Array record parsed with a dimension count of zero (its
payload starts with bytes `00 00`) yields an empty dimension list, on
which `checkSanity` raises an out-of-bounds access when it reads the
flags of dimension 0 (modelled as `none`) instead of returning false:
the sanity check is not total over parseable Array records. -/
theorem c9_array_zero_dims (b : List Nat) (selfIndex : Int)
    (h : readUInt b (parseRSRCDataHeader b).2.2.2 2 = 0) :
    (arrayParseRSRCData b).dimensions = [] ∧
    arrayCheckSanity selfIndex (arrayParseRSRCData b).dimensions
      (arrayParseRSRCData b).clients = none := by
  have hd : (arrayParseRSRCData b).dimensions = [] := by
    simp only [arrayParseRSRCData, h, List.range_zero, List.map_nil]
  refine ⟨hd, ?_⟩
  rw [hd]
  rfl

/-- Claim C9 theorem, applied: the Array record `00 08 00 40 00 00 00 05`
(zero dimensions, client index 5) parses, and its sanity check at
catalog index 0 raises instead of returning a verdict. -/
theorem c9_array_zero_dims_witness :
    (arrayParseRSRCData [0, 8, 0, 64, 0, 0, 0, 5]).dimensions = [] ∧
    arrayCheckSanity 0 (arrayParseRSRCData [0, 8, 0, 64, 0, 0, 0, 5]).dimensions
      (arrayParseRSRCData [0, 8, 0, 64, 0, 0, 0, 5]).clients = none :=
  c9_array_zero_dims [0, 8, 0, 64, 0, 0, 0, 5] 0 (by decide)

/-- The two dirty markers of a connector record: `raw_data_updated`
(raw was just read, fields not yet derived) and `parsed_data_updated`
(fields just set, raw not yet rebuilt). -/
structure DirtyState where
  rawU : Bool
  parsedU : Bool
deriving DecidableEq, Repr

/-- `ConnectorObject.__init__`: both markers start false. -/
def connInit : DirtyState :=
  DirtyState.mk false false

/-- `initWithRSRC`: store the raw bytes and set `raw_data_updated`. -/
def opInitWithRSRC (s : DirtyState) : DirtyState :=
  { s with rawU := true }

/-- `initWithXMLInlineStart`: set fields from XML and set
`parsed_data_updated`. -/
def opInlineStart (s : DirtyState) : DirtyState :=
  { s with parsedU := true }

/-- `parseRSRCData` (via `parseRSRCDataFinish`): clear
`raw_data_updated`. -/
def opParseRSRCData (s : DirtyState) : DirtyState :=
  { s with rawU := false }

/-- `parseXMLData`: clear `parsed_data_updated`. -/
def opParseXMLData (s : DirtyState) : DirtyState :=
  { s with parsedU := false }

/-- `setData`: set `raw_data_updated` unless the buffer is marked
incomplete; `parsed_data_updated` is left untouched. -/
def opSetData (incomplete : Bool) (s : DirtyState) : DirtyState :=
  if incomplete then s else { s with rawU := true }

/-- `updateData`: return early when `avoid_recompute` and strong raw
data is present; otherwise rebuild and `setData` with
`incomplete := avoid_recompute`. -/
def opUpdateData (avoidRecompute : Bool) (s : DirtyState) : DirtyState :=
  if avoidRecompute && s.rawU then s else opSetData avoidRecompute s

/-- `parseData`: with either marker pending, derive fields from the
pending side; with neither pending nothing is needed, and the data
source would decide (`needParseData` gates the whole body). -/
def opParseData (rsrcSource : Bool) (s : DirtyState) : DirtyState :=
  if s.rawU || s.parsedU then
    if s.rawU then opParseRSRCData s
    else if s.parsedU then opParseXMLData s
    else if rsrcSource then opParseRSRCData s
    else opParseXMLData s
  else s

/-- `initWithXML`, inline branch: `initWithXMLInlineStart` then
`updateData(avoid_recompute=True)`. -/
def opInitWithXMLInline (s : DirtyState) : DirtyState :=
  opUpdateData true (opInlineStart s)

/-- `initWithXML`, bin branch: `setData` of the file bytes, then
`parsed_data_updated` is explicitly cleared. -/
def opInitWithXMLBin (s : DirtyState) : DirtyState :=
  { opSetData false s with parsedU := false }

/-- The claimed invariant: the markers are never both true. -/
def dirtyInv (s : DirtyState) : Bool :=
  !(s.rawU && s.parsedU)

/-- Claim C7 fails on the code: after `initWithXML` (inline) the state
has `parsed_data_updated` set and satisfies the invariant, but applying
`setData` (default `incomplete=False`) — or `updateData` with its
default `avoid_recompute=False` — sets `raw_data_updated` without
clearing `parsed_data_updated`, leaving both markers true. -/
theorem c7_counterexample :
    opInitWithXMLInline connInit = DirtyState.mk false true ∧
    dirtyInv (opInitWithXMLInline connInit) = true ∧
    dirtyInv (opSetData false (opInitWithXMLInline connInit)) = false ∧
    dirtyInv (opUpdateData false (opInitWithXMLInline connInit)) = false := by
  decide

/-- Claim C7, amended: the invariant `not (raw_data_updated and
parsed_data_updated)` holds after construction, is established by
`initWithRSRC`, `initWithXML` (both branches) on a freshly-constructed
record, and is preserved from any state by `parseData` and by
`updateData` with `avoid_recompute=True` (the only way the code calls
it); `setData` with `incomplete=False` — and hence `updateData` with
`avoid_recompute=False` — preserves it only from states with no parsed
update pending, and breaks it otherwise. -/
theorem c7_dirty_invariant :
    dirtyInv connInit = true ∧
    dirtyInv (opInitWithRSRC connInit) = true ∧
    dirtyInv (opInitWithXMLInline connInit) = true ∧
    dirtyInv (opInitWithXMLBin connInit) = true ∧
    (∀ (s : DirtyState) (rsrcSource : Bool),
        dirtyInv s = true → dirtyInv (opParseData rsrcSource s) = true) ∧
    (∀ s : DirtyState, dirtyInv s = true → dirtyInv (opUpdateData true s) = true) ∧
    (∀ (s : DirtyState) (incomplete : Bool),
        s.parsedU = false → dirtyInv (opSetData incomplete s) = true) ∧
    (∀ s : DirtyState, s.parsedU = false → dirtyInv (opUpdateData false s) = true) := by
  refine ⟨by decide, by decide, by decide, by decide, ?_, ?_, ?_, ?_⟩
  · intro s rsrcSource h
    rcases s with ⟨r, p⟩
    revert h
    cases r <;> cases p <;> cases rsrcSource <;> decide
  · intro s h
    rcases s with ⟨r, p⟩
    revert h
    cases r <;> cases p <;> decide
  · intro s incomplete h
    rcases s with ⟨r, p⟩
    revert h
    cases r <;> cases p <;> cases incomplete <;> decide
  · intro s h
    rcases s with ⟨r, p⟩
    revert h
    cases r <;> cases p <;> decide

/-- Claim C7 amended theorem, applied: a freshly read record satisfies
the invariant and keeps it through `parseData` and a safe `setData`. -/
theorem c7_dirty_invariant_witness :
    dirtyInv (opParseData true (opInitWithRSRC connInit)) = true ∧
    dirtyInv (opUpdateData true (opInitWithRSRC connInit)) = true ∧
    dirtyInv (opSetData false (opInitWithRSRC connInit)) = true ∧
    dirtyInv (opUpdateData false (opInitWithRSRC connInit)) = true :=
  ⟨c7_dirty_invariant.2.2.2.2.1 (opInitWithRSRC connInit) true (by decide),
   c7_dirty_invariant.2.2.2.2.2.1 (opInitWithRSRC connInit) (by decide),
   c7_dirty_invariant.2.2.2.2.2.2.1 (opInitWithRSRC connInit) false (by decide),
   c7_dirty_invariant.2.2.2.2.2.2.2 (opInitWithRSRC connInit) (by decide)⟩

/-- Signed 32-bit read, `int.from_bytes(..., signed=True)`. -/
def readSInt32 (data : List Nat) (pos : Nat) : Int :=
  if readUInt data pos 4 < 0x80000000 then (readUInt data pos 4 : Int)
  else (readUInt data pos 4 : Int) - 0x100000000

/-- One FixedPoint range record. The 8-byte IEEE-754 double is kept as
its raw big-endian bytes; this development does not interpret
floating-point values. -/
structure FixPtRange where
  prop1 : Option Nat
  prop2 : Option Nat
  prop3 : Option Int
  value : List Nat
deriving DecidableEq, Repr

/-- One iteration of the range loop in
`ConnectorObjectFixedPoint.parseRSRCData`: `rangeFormat` 0 reads a
double; `rangeFormat` 1 reads either three property fields plus a
double (when `field1E > 0x40` or `dataVersion > 0`) or just a double;
any other `rangeFormat` assigns no value and the Python loop fails on
an unbound `valtup`, modelled as `none`. Returns the range and the
unconsumed bytes. -/
def fixedPointParseRange (rangeFormat dataVersion field1E : Nat)
    (bytes : List Nat) : Option (FixPtRange × List Nat) :=
  if rangeFormat = 0 then
    some (FixPtRange.mk none none none (bytes.take 8), bytes.drop 8)
  else if rangeFormat = 1 then
    if field1E > 0x40 ∨ dataVersion > 0 then
      some (FixPtRange.mk (some (readUInt bytes 0 2)) (some (readUInt bytes 2 2))
        (some (readSInt32 bytes 4)) ((bytes.drop 8).take 8), bytes.drop 16)
    else
      some (FixPtRange.mk none none none (bytes.take 8), bytes.drop 8)
  else none

/-- The range loop of `ConnectorObjectFixedPoint.parseRSRCData`,
`count` iterations; a failing iteration aborts the parse. -/
def fixedPointParseRanges (rangeFormat dataVersion field1E : Nat) :
    Nat → List Nat → Option (List FixPtRange × List Nat)
  | 0, bytes => some ([], bytes)
  | n + 1, bytes =>
      match fixedPointParseRange rangeFormat dataVersion field1E bytes with
      | none => none
      | some r =>
          match fixedPointParseRanges rangeFormat dataVersion field1E n r.2 with
          | none => none
          | some rs => some (r.1 :: rs.1, rs.2)

/-- The `field1C` word of a FixedPoint record: first payload word after
the header. -/
def fixedPointField1C (b : List Nat) : Nat :=
  readUInt b (parseRSRCDataHeader b).2.2.2 2

/-- Bits 4-5 of `field1C`: the 2-bit `rangeFormat` field. -/
def fixedPointRangeFormat (b : List Nat) : Nat :=
  (fixedPointField1C b >>> 4) &&& 0x03

/-- Bits 0-3 of `field1C`: the `dataVersion` field. -/
def fixedPointDataVersion (b : List Nat) : Nat :=
  fixedPointField1C b &&& 0x0F

/-- The `field1E` word of a FixedPoint record. -/
def fixedPointField1E (b : List Nat) : Nat :=
  readUInt b ((parseRSRCDataHeader b).2.2.2 + 2) 2

/-- In-memory FixedPoint connector state. -/
structure FixedPointConn where
  oflags : Nat
  otype : Nat
  dataVersion : Nat
  rangeFormat : Nat
  dataEncoding : Nat
  dataEndianness : Nat
  dataUnit : Nat
  allocOv : Nat
  leftovFlags : Nat
  field1E : Nat
  field20 : Nat
  ranges : List FixPtRange
  label : Option (List Nat)
  rawData : List Nat
deriving DecidableEq, Repr

/-- `ConnectorObjectFixedPoint.parseRSRCData`: header, the `field1C`
bitfield, `field1E`, `field20`, exactly three range records, then the
label tail; `none` when the range loop fails. -/
def fixedPointParseRSRCData (b : List Nat) : Option FixedPointConn :=
  match fixedPointParseRanges (fixedPointRangeFormat b) (fixedPointDataVersion b)
      (fixedPointField1E b) 3 (b.drop ((parseRSRCDataHeader b).2.2.2 + 8)) with
  | none => none
  | some rr =>
      some { oflags := (parseRSRCDataHeader b).2.1
             otype := (parseRSRCDataHeader b).1
             dataVersion := fixedPointDataVersion b
             rangeFormat := fixedPointRangeFormat b
             dataEncoding := (fixedPointField1C b >>> 6) &&& 0x01
             dataEndianness := (fixedPointField1C b >>> 7) &&& 0x01
             dataUnit := (fixedPointField1C b >>> 8) &&& 0x07
             allocOv := (fixedPointField1C b >>> 11) &&& 0x01
             leftovFlags := (fixedPointField1C b >>> 8) &&& 0xF6
             field1E := fixedPointField1E b
             field20 := readUInt b ((parseRSRCDataHeader b).2.2.2 + 4) 4
             ranges := rr.1
             label := parseRSRCDataFinishLabel (parseRSRCDataHeader b).2.1 rr.2
             rawData := b }

/-- Claim C8: for every FixedPoint record whose 2-bit `rangeFormat`
field (bits 4-5 of `field1C`) is 2 or 3, the range-parsing loop assigns
no value and the parse fails with an unbound-variable error rather than
producing a record: `parseRSRCData` is not total over those inputs. -/
theorem c8_fixedpoint_rangeformat (b : List Nat)
    (h : 2 ≤ fixedPointRangeFormat b) :
    fixedPointParseRSRCData b = none := by
  have h1 : fixedPointParseRange (fixedPointRangeFormat b) (fixedPointDataVersion b)
      (fixedPointField1E b) (b.drop ((parseRSRCDataHeader b).2.2.2 + 8)) = none := by
    unfold fixedPointParseRange
    rw [if_neg (by omega), if_neg (by omega)]
  have h3 : fixedPointParseRanges (fixedPointRangeFormat b) (fixedPointDataVersion b)
      (fixedPointField1E b) 3 (b.drop ((parseRSRCDataHeader b).2.2.2 + 8)) = none := by
    show fixedPointParseRanges _ _ _ (2 + 1) _ = none
    simp only [fixedPointParseRanges, h1]
  unfold fixedPointParseRSRCData
  rw [h3]

/-- Claim C8 theorem, applied: the FixedPoint record
`00 10 00 5F 00 20 00 00 00 00 00 00` carries `field1C = 0x0020`, so
its `rangeFormat` is 2, and the parse reaches the unbound-variable
branch. -/
theorem c8_fixedpoint_rangeformat_witness :
    fixedPointParseRSRCData [0, 16, 0, 95, 0, 32, 0, 0, 0, 0, 0, 0] = none :=
  c8_fixedpoint_rangeformat [0, 16, 0, 95, 0, 32, 0, 0, 0, 0, 0, 0] (by decide)

/-- Claim C10: on every emission, `prepareRSRCDataFinish` truncates a
present label to its first 255 bytes, forces the HasLabel bit in the
record flags, and emits the length byte and label bytes zero-padded to
even length; with no label it clears the HasLabel bit and emits
nothing. -/
theorem c10_finish_label (oflags : Nat) (l : List Nat) :
    prepareRSRCDataFinish oflags (some l)
      = (oflags ||| 64, some (l.take 255),
         (l.take 255).length :: (l.take 255
           ++ (if ((l.take 255).length + 1) % 2 = 1 then [0] else []))) ∧
    (prepareRSRCDataFinish oflags (some l)).2.2.length % 2 = 0 ∧
    prepareRSRCDataFinish oflags none = (clearHasLabel oflags, none, []) := by
  have htr : (if l.length > 255 then l.take 255 else l) = l.take 255 := by
    by_cases h : l.length > 255
    · rw [if_pos h]
    · rw [if_neg h, List.take_of_length_le (by omega)]
  have hmain : prepareRSRCDataFinish oflags (some l)
      = (oflags ||| 64, some (l.take 255),
         (l.take 255).length :: (l.take 255
           ++ (if ((l.take 255).length + 1) % 2 = 1 then [0] else []))) := by
    simp only [prepareRSRCDataFinish, htr, List.length_cons, List.length_take]
    by_cases hodd : (255 ⊓ l.length + 1) % 2 = 1
    · rw [if_pos (by omega), if_pos hodd, List.cons_append]
    · rw [if_neg (by omega), if_neg hodd]
      simp
  refine ⟨hmain, ?_, rfl⟩
  rw [hmain]
  show ((l.take 255).length :: (l.take 255
    ++ (if ((l.take 255).length + 1) % 2 = 1 then [0] else []))).length % 2 = 0
  by_cases hodd : ((l.take 255).length + 1) % 2 = 1
  · rw [if_pos hodd]
    simp only [List.length_cons, List.length_append, List.length_nil]
    omega
  · rw [if_neg hodd]
    simp only [List.length_cons, List.length_append, List.length_nil]
    omega

end PyLabView
